import Mathlib

/-!
Verification of the sas-logger wide-event library: a shallow embedding of
the event model (src/core/types.ts), the event builder and request-scoped
context operations (src/core/WideEvent.ts), the sampling policy
(src/core/sampling.ts) and the Axiom batching transport
(src/adapters/axiom.ts), together with theorems about the claimed
behaviour of each operation.

JavaScript conventions modelled explicitly:
- optional / possibly-undefined values are `Option`;
- the JS `a || b` operator on strings treats the empty string as falsy,
  modelled by `jsTruthy` followed by `jsOr`;
- object spread `{...old, ...new}` on open records is modelled on
  insertion-ordered association lists by `smapMerge`, whose lookup gives
  the new object's binding when present and the old one otherwise;
- `Math.random()` is modelled as an explicit rational draw `r`
  (the sampling decision uses only the comparison `r < sampleRate`).
-/

namespace SasLogger

/-- JS `||` on already-truthiness-filtered optional values: first defined
value wins. -/
def jsOr {α : Type} (a b : Option α) : Option α :=
  match a with
  | some v => some v
  | none => b

/-- JS truthiness filter for strings: `undefined`/`null` and the empty
string are falsy. -/
def jsTruthy (s : Option String) : Option String :=
  match s with
  | some v => if v = "" then none else some v
  | none => none

/-- Insertion-ordered association list standing for a JS object used as a
string-keyed map. -/
abbrev SMap (α : Type) : Type := List (String × α)

/-- Lookup of a key in a JS-object map (first binding wins; `smapMerge`
keeps at most one binding per key). -/
def smapGet {α : Type} (m : SMap α) (k : String) : Option α :=
  match m with
  | [] => none
  | (k1, v) :: rest => if k1 = k then some v else smapGet rest k

/-- Whether a key is present in a JS-object map. -/
def smapHasKey {α : Type} (m : SMap α) (k : String) : Bool :=
  (smapGet m k).isSome

/-- Object spread `{...old, ...new}`: every key of both objects is kept,
and the new object's value wins on common keys. -/
def smapMerge {α : Type} (old new : SMap α) : SMap α :=
  old.filter (fun kv => ! smapHasKey new kv.1) ++ new

/-- Lookup on a possibly-undefined map field (`undefined` spreads as the
empty object). -/
def smapGet0 {α : Type} (m : Option (SMap α)) (k : String) : Option α :=
  smapGet (m.getD []) k

/-- Value stored in the open-ended `business` record
(`Record<string, unknown>` in the source). -/
inductive JVal : Type where
  | str : String → JVal
  | num : Int → JVal
  | bool : Bool → JVal
deriving DecidableEq

/-- The `request` sub-object of a wide event (src/core/types.ts). -/
structure RequestInfo : Type where
  method : String
  path : String
  query : Option (SMap String) := none
  duration_ms : Int
  status_code : Int
  ip : Option String := none
  user_agent : Option String := none
deriving DecidableEq

/-- The `service` sub-object of a wide event (src/core/types.ts). -/
structure ServiceInfo : Type where
  name : String
  version : String
  environment : String
  region : Option String := none
  deployment_id : Option String := none
deriving DecidableEq

/-- The `user` sub-object of a wide event. Every field is `Option` so the
same type serves as the enrichment patch (a JS object in which any key may
be absent). -/
structure User : Type where
  id : Option String := none
  email : Option String := none
  role : Option String := none
  subscription : Option String := none
  account_age_days : Option Int := none
deriving DecidableEq

/-- The `error` sub-object of a wide event. -/
structure ErrorInfo : Type where
  type : String
  message : String
  code : Option String := none
  stack : Option String := none
  retriable : Bool
deriving DecidableEq

/-- The `outcome` discriminated union. -/
inductive Outcome : Type where
  | success
  | error
  | warning
deriving DecidableEq

/-- The wide event record (src/core/types.ts, interface WideEvent). -/
structure WideEvent : Type where
  event_id : String
  trace_id : String
  timestamp : String
  request : RequestInfo
  service : ServiceInfo
  user : Option User := none
  business : Option (SMap JVal) := none
  performance : Option (SMap Int) := none
  error : Option ErrorInfo := none
  feature_flags : Option (SMap Bool) := none
  outcome : Outcome
deriving DecidableEq

/-- Library configuration (src/core/types.ts, interface WideEventConfig).
The sampling-function field is omitted: it is a caller-supplied closure
and no claim quantifies over it. -/
structure WideEventConfig : Type where
  serviceName : String
  serviceVersion : Option String := none
  environment : Option String := none
  dataset : Option String := none
  token : Option String := none
  debug : Bool := false

/-- The process environment variables the library reads. -/
structure EnvVars : Type where
  npm_package_version : Option String := none
  VERCEL_ENV : Option String := none
  NODE_ENV : Option String := none
  VERCEL_REGION : Option String := none
  AWS_REGION : Option String := none
  VERCEL_DEPLOYMENT_ID : Option String := none
  AXIOM_DATASET : Option String := none
  AXIOM_TOKEN : Option String := none

/-- WideEventBuilder.createBaseEvent (src/core/WideEvent.ts lines 28-55).
The generated identifiers and the timestamp are nondeterministic at the
source (crypto.randomUUID, new Date()) and are passed in explicitly. -/
def createBaseEvent (cfg : WideEventConfig) (env : EnvVars)
    (eventId traceId timestamp : String) : WideEvent :=
  { event_id := eventId
    trace_id := traceId
    timestamp := timestamp
    request :=
      { method := "UNKNOWN", path := "/", query := none,
        duration_ms := 0, status_code := 200, ip := none, user_agent := none }
    service :=
      { name := cfg.serviceName
        version :=
          (jsOr (jsTruthy cfg.serviceVersion)
            (jsTruthy env.npm_package_version)).getD "0.0.0"
        environment :=
          (jsOr (jsTruthy cfg.environment)
            (jsOr (jsTruthy env.VERCEL_ENV) (jsTruthy env.NODE_ENV))).getD
            "development"
        region := jsOr (jsTruthy env.VERCEL_REGION) env.AWS_REGION
        deployment_id := env.VERCEL_DEPLOYMENT_ID }
    user := none
    business := none
    performance := none
    error := none
    feature_flags := none
    outcome := Outcome.success }

/-- A Web API Request as the builder reads it: method, parsed URL pieces
and a header map. Header names are taken already lowercased, as the Fetch
Headers class normalises them. -/
structure WebRequest : Type where
  method : String
  path : String
  query : SMap String
  headers : SMap String

/-- Fetch `headers.get(name)`: the header value or null. -/
def getHeader (req : WebRequest) (name : String) : Option String :=
  smapGet req.headers name

/-- WideEventBuilder.fromRequest (src/core/WideEvent.ts lines 60-79).
`freshId` stands for the `generateTraceId()` call in the final position of
the `||` chain. -/
def fromRequest (e : WideEvent) (req : WebRequest) (traceId : Option String)
    (freshId : String) : WideEvent :=
  { e with
    request :=
      { e.request with
        method := req.method
        path := req.path
        query := some req.query
        user_agent := jsTruthy (getHeader req "user-agent") }
    trace_id :=
      ((jsOr (jsTruthy traceId)
        (jsOr (jsTruthy (getHeader req "x-trace-id"))
          (jsTruthy (getHeader req "x-request-id")))).getD freshId) }

/-- The argument object of fromRawRequest. -/
structure RawRequestDetails : Type where
  method : String
  path : String
  query : Option (SMap String) := none
  ip : Option String := none
  userAgent : Option String := none
  traceId : Option String := none

/-- WideEventBuilder.fromRawRequest (src/core/WideEvent.ts lines 84-106):
overwrites the request fields and reassigns trace_id only when a truthy
traceId is supplied. -/
def fromRawRequest (e : WideEvent) (d : RawRequestDetails) : WideEvent :=
  let e1 :=
    { e with
      request :=
        { e.request with
          method := d.method
          path := d.path
          query := d.query
          ip := d.ip
          user_agent := d.userAgent } }
  match jsTruthy d.traceId with
  | some t => { e1 with trace_id := t }
  | none => e1

/-- WideEventBuilder.withUser: wholesale replacement. -/
def withUser (e : WideEvent) (u : Option User) : WideEvent :=
  { e with user := u }

/-- WideEventBuilder.withBusiness (src/core/WideEvent.ts lines 119-122):
spread-merge into the existing business object. -/
def withBusiness (e : WideEvent) (b : SMap JVal) : WideEvent :=
  { e with business := some (smapMerge (e.business.getD []) b) }

/-- WideEventBuilder.withPerformance (lines 127-130). -/
def withPerformance (e : WideEvent) (p : SMap Int) : WideEvent :=
  { e with performance := some (smapMerge (e.performance.getD []) p) }

/-- WideEventBuilder.withFeatureFlags (lines 135-138). -/
def withFeatureFlags (e : WideEvent) (f : SMap Bool) : WideEvent :=
  { e with feature_flags := some (smapMerge (e.feature_flags.getD []) f) }

/-- A JS Error value as the library reads it. -/
structure JsError : Type where
  name : String
  message : String
  stack : Option String := none
deriving DecidableEq

/-- WideEventBuilder.withError (src/core/WideEvent.ts lines 143-152):
unconditionally sets outcome to error and fills the error record;
`error.name || "Error"` falls back on the empty name. -/
def withError (e : WideEvent) (err : JsError) (retriable : Bool) : WideEvent :=
  { e with
    outcome := Outcome.error
    error := some
      { type := if err.name = "" then "Error" else err.name
        message := err.message
        code := none
        stack := err.stack
        retriable := retriable } }

/-- WideEventBuilder.withStatusCode (src/core/WideEvent.ts lines 157-165). -/
def withStatusCode (e : WideEvent) (statusCode : Int) : WideEvent :=
  let e1 := { e with request := { e.request with status_code := statusCode } }
  if 500 ≤ statusCode then { e1 with outcome := Outcome.error }
  else if 400 ≤ statusCode then { e1 with outcome := Outcome.warning }
  else e1

/-- WideEventBuilder.build (lines 190-193): stamps the duration from the
recorded start time. -/
def build (e : WideEvent) (nowMs startMs : Int) : WideEvent :=
  { e with request := { e.request with duration_ms := nowMs - startMs } }

/-- The enrichment payload (src/core/types.ts, interface EnrichmentData). -/
structure EnrichmentData : Type where
  user : Option User := none
  business : Option (SMap JVal) := none
  performance : Option (SMap Int) := none
  feature_flags : Option (SMap Bool) := none

/-- Spread `{...old, ...patch}` on the user object: any key present in the
patch wins, absent keys keep the old value. -/
def userSpread (old patch : User) : User :=
  { id := jsOr patch.id old.id
    email := jsOr patch.email old.email
    role := jsOr patch.role old.role
    subscription := jsOr patch.subscription old.subscription
    account_age_days := jsOr patch.account_age_days old.account_age_days }

/-- The merging body shared by WideEventBuilder.enrich (lines 170-185) and
the context-level enrichEvent (lines 244-262): each of the four sections
fires only when the corresponding payload field is defined. -/
def enrichWideEvent (e : WideEvent) (d : EnrichmentData) : WideEvent :=
  let e1 :=
    match d.user with
    | some u => { e with user := some (userSpread (e.user.getD {}) u) }
    | none => e
  let e2 :=
    match d.business with
    | some b => { e1 with business := some (smapMerge (e1.business.getD []) b) }
    | none => e1
  let e3 :=
    match d.performance with
    | some p =>
        { e2 with performance := some (smapMerge (e2.performance.getD []) p) }
    | none => e2
  match d.feature_flags with
  | some f =>
      { e3 with feature_flags := some (smapMerge (e3.feature_flags.getD []) f) }
  | none => e3

/-- Context enrichEvent (src/core/WideEvent.ts lines 233-263): the current
store of the AsyncLocalStorage is passed explicitly; with no event in
scope the data is dropped (the source only emits a development warning). -/
def enrichEvent (cur : Option WideEvent) (d : EnrichmentData) :
    Option WideEvent :=
  match cur with
  | none => none
  | some e => some (enrichWideEvent e d)

/-- Context setEventError (src/core/WideEvent.ts lines 269-280): no-op
without an event in scope, otherwise sets outcome to error and fills the
error record exactly as the builder does. -/
def setEventError (cur : Option WideEvent) (err : JsError) (retriable : Bool) :
    Option WideEvent :=
  match cur with
  | none => none
  | some e =>
      some
        { e with
          outcome := Outcome.error
          error := some
            { type := if err.name = "" then "Error" else err.name
              message := err.message
              code := none
              stack := err.stack
              retriable := retriable } }

/-- Options object of defaultShouldSample (src/core/sampling.ts). The
sampleRate and the random draw are modelled as rationals. -/
structure SamplingOptions : Type where
  slowThresholdMs : Option Int := none
  alwaysKeepSubscriptions : Option (List String) := none
  sampleRate : Option Rat := none

/-- defaultShouldSample (src/core/sampling.ts lines 13-56). The call to
Math.random() is the explicit draw `rand`; the function keeps the event
exactly when the source returns true given that draw. -/
def defaultShouldSample (e : WideEvent) (opts : SamplingOptions)
    (rand : Rat) : Bool :=
  let slowThresholdMs := opts.slowThresholdMs.getD 2000
  let alwaysKeepSubscriptions :=
    opts.alwaysKeepSubscriptions.getD ["enterprise", "premium"]
  let sampleRate := opts.sampleRate.getD (1 / 10)
  if e.outcome = Outcome.error then true
  else if 500 ≤ e.request.status_code then true
  else if e.error.isSome then true
  else if slowThresholdMs < e.request.duration_ms then true
  else if
      (match e.user with
       | some u =>
           match jsTruthy u.subscription with
           | some s => alwaysKeepSubscriptions.contains s
           | none => false
       | none => false) then true
  else decide (rand < sampleRate)

/-- keepOnlyErrors (src/core/sampling.ts lines 70-76). -/
def keepOnlyErrors (e : WideEvent) : Bool :=
  decide (e.outcome = Outcome.error) || decide (400 ≤ e.request.status_code)
    || e.error.isSome

/-- State of one AxiomAdapter instance (src/adapters/axiom.ts): the ingest
token resolved at construction, the pending-event queue, and whether the
single nullable flushTimeout slot currently holds a scheduled timer. -/
structure AdapterState : Type where
  token : String
  pending : List WideEvent
  flushTimeoutSet : Bool
deriving DecidableEq

/-- The AxiomAdapter constructor (src/adapters/axiom.ts lines 15-25):
resolves the token through the JS `||` chain, starts with an empty queue
and no scheduled flush. -/
def mkAdapter (cfg : WideEventConfig) (env : EnvVars) : AdapterState :=
  { token := (jsOr (jsTruthy cfg.token) (jsTruthy env.AXIOM_TOKEN)).getD ""
    pending := []
    flushTimeoutSet := false }

/-- The synchronous prefix of AxiomAdapter.flush (src/adapters/axiom.ts
lines 59-75), up to the awaited fetch: clear any scheduled timer, return
without a batch on an empty queue, drop the queue without a batch when no
token is configured, otherwise swap the whole queue out as the batch. -/
def flushSync (s : AdapterState) : AdapterState × Option (List WideEvent) :=
  let s1 := { s with flushTimeoutSet := false }
  if s1.pending = [] then (s1, none)
  else if s1.token = "" then ({ s1 with pending := [] }, none)
  else ({ s1 with pending := [] }, some s1.pending)

/-- Result of the awaited ingest round-trip. -/
inductive FlushOutcome : Type where
  | ok
  | httpError
  | netException
deriving DecidableEq

/-- AxiomAdapter.flush (src/adapters/axiom.ts lines 59-110) over one full
round-trip: the synchronous prefix runs first; if a batch was swapped out,
events enqueued while the fetch is awaited (`arrivals`) land in the new
queue; every response branch — 2xx, non-2xx (logged, with the rate-limit
header inspected) and thrown network error (logged) — leaves the queue
untouched: the batch is never re-queued. The second component is the batch
sent as the single ingest request, or none when no request was made. -/
def flush (s : AdapterState) (arrivals : List WideEvent) (out : FlushOutcome) :
    AdapterState × Option (List WideEvent) :=
  match flushSync s with
  | (s1, none) => (s1, none)
  | (s1, some batch) =>
      let s2 := { s1 with pending := s1.pending ++ arrivals }
      match out with
      | FlushOutcome.ok => (s2, some batch)
      | FlushOutcome.httpError => (s2, some batch)
      | FlushOutcome.netException => (s2, some batch)

/-- AxiomAdapter.send (src/adapters/axiom.ts lines 30-53): without a token
the event is only console-mirrored; otherwise it is appended, and either a
batch-size-10 immediate flush fires (its synchronous prefix runs at once;
the Boolean reports that an immediate flush was triggered) or a delayed
flush is scheduled when none is pending. -/
def send (s : AdapterState) (e : WideEvent) : AdapterState × Bool :=
  if s.token = "" then (s, false)
  else
    let s1 := { s with pending := s.pending ++ [e] }
    if 10 ≤ s1.pending.length then ((flushSync s1).1, true)
    else if s1.flushTimeoutSet then (s1, false)
    else ({ s1 with flushTimeoutSet := true }, false)

/-- Reachability invariant of an adapter: a tokenless adapter never holds
pending events (send refuses to queue without a token). -/
def AdapterInv (s : AdapterState) : Prop :=
  s.token = "" → s.pending = []

/-- Last-write-wins union over a sequence of patches, read at one key: the
latest patch defining the key wins, else the initial value. -/
def lww {α : Type} (init : Option α) (ps : List (SMap α)) (k : String) :
    Option α :=
  ps.foldl (fun acc p => jsOr (smapGet p k) acc) init

lemma jsOr_none_right {α : Type} (a : Option α) : jsOr a none = a := by
  cases a <;> rfl

lemma smapGet_append {α : Type} (xs ys : SMap α) (k : String) :
    smapGet (xs ++ ys) k = jsOr (smapGet xs k) (smapGet ys k) := by
  induction xs with
  | nil => rfl
  | cons kv rest ih =>
      obtain ⟨k1, v⟩ := kv
      by_cases h : k1 = k
      · simp [smapGet, h, jsOr]
      · simp [smapGet, h, ih]

lemma smapGet_filter_not_in {α : Type} (old new : SMap α) (k : String) :
    smapGet (old.filter (fun kv => ! smapHasKey new kv.1)) k =
      if smapHasKey new k then none else smapGet old k := by
  induction old with
  | nil => simp [smapGet]
  | cons kv rest ih =>
      obtain ⟨k1, v⟩ := kv
      by_cases hk : smapHasKey new k1
      · by_cases h : k1 = k
        · subst h
          simp [List.filter, hk, ih, smapGet]
        · simp [List.filter, hk, ih, smapGet, h]
      · by_cases h : k1 = k
        · subst h
          simp [List.filter, hk, smapGet]
        · simp [List.filter, hk, ih, smapGet, h]

lemma smapGet_smapMerge {α : Type} (old new : SMap α) (k : String) :
    smapGet (smapMerge old new) k = jsOr (smapGet new k) (smapGet old k) := by
  unfold smapMerge
  rw [smapGet_append, smapGet_filter_not_in]
  by_cases h : smapHasKey new k
  · obtain ⟨v, hv⟩ := Option.isSome_iff_exists.mp h
    simp [h, hv, jsOr]
  · have hnone : smapGet new k = none :=
      Option.not_isSome_iff_eq_none.mp (by simpa [smapHasKey] using h)
    simp [h, hnone, jsOr, jsOr_none_right]
    cases smapGet old k <;> rfl

lemma smapGet0_merge {α : Type} (m : Option (SMap α)) (p : SMap α)
    (k : String) :
    smapGet0 (some (smapMerge (m.getD []) p)) k
      = jsOr (smapGet p k) (smapGet0 m k) := by
  simp [smapGet0, smapGet_smapMerge]

lemma jsOr_isSome_right {α : Type} (a b : Option α) (h : b.isSome = true) :
    (jsOr a b).isSome = true := by
  cases a <;> simp [jsOr, h]

lemma lww_isSome_of_init {α : Type} (init : Option α) (ps : List (SMap α))
    (k : String) (h : init.isSome = true) :
    (lww init ps k).isSome = true := by
  induction ps generalizing init with
  | nil => simpa [lww] using h
  | cons p ps ih =>
      have : (jsOr (smapGet p k) init).isSome = true :=
        jsOr_isSome_right _ _ h
      simpa [lww] using ih _ this

/-- Concrete service record used by the concrete test events. -/
def svc0 : ServiceInfo :=
  { name := "svc", version := "1.0.0", environment := "production" }

/-- Concrete benign request: 200, 500ms. -/
def req0 : RequestInfo :=
  { method := "GET", path := "/a", duration_ms := 500, status_code := 200 }

/-- Concrete benign event: success outcome, 200, fast, no user, no error. -/
def ev0 : WideEvent :=
  { event_id := "evt_0", trace_id := "t0",
    timestamp := "2026-01-01T00:00:00Z",
    request := req0, service := svc0, outcome := Outcome.success }

/-- Concrete event already in the error outcome. -/
def evErr0 : WideEvent := { ev0 with outcome := Outcome.error }

/-- Concrete slow event (2500ms, above the default 2000ms threshold). -/
def evSlow : WideEvent :=
  { ev0 with request := { req0 with duration_ms := 2500 } }

/-- Concrete event of an enterprise-subscription user. -/
def evEnterprise : WideEvent :=
  { ev0 with user := some { subscription := some "enterprise" } }

/-- Concrete event whose user has the empty string as subscription. -/
def evEmptySub : WideEvent :=
  { ev0 with user := some { subscription := some "" } }

/-- Default sampling options except a zero sample rate. -/
def opts0 : SamplingOptions := { sampleRate := some 0 }

/-- Options whose always-keep list contains the empty string, with a zero
sample rate. -/
def optsEmptySub : SamplingOptions :=
  { alwaysKeepSubscriptions := some [""], sampleRate := some 0 }

/-- Concrete Web request with no headers and no query. -/
def webReqPlain : WebRequest :=
  { method := "GET", path := "/a", query := [], headers := [] }

/-- Concrete raw-request details with no traceId. -/
def rawNoTid : RawRequestDetails := { method := "GET", path := "/b" }

/-- Concrete Web request carrying an upstream x-trace-id header. -/
def webReqTid : WebRequest :=
  { method := "GET", path := "/a", query := [],
    headers := [("x-trace-id", "up1")] }

/-- C1, counterexample: the claim says a status code in 400-499 leaves an
existing "error" outcome untouched, but withStatusCode 404 on an event
whose outcome is already "error" rewrites the outcome to "warning": the
4xx branch of the source assigns "warning" without looking at the current
outcome. -/
theorem withStatusCode_404_downgrades_error :
    evErr0.outcome = Outcome.error
    ∧ (withStatusCode evErr0 404).outcome = Outcome.warning
    ∧ Outcome.warning ≠ Outcome.error := by decide

/-- C1, amended: withStatusCode(code) sets request.status_code to code and
then escalates: code ≥ 500 makes the outcome "error"; 400 ≤ code ≤ 499
makes the outcome "warning" unconditionally, overwriting even an existing
"error"; code < 400 leaves the outcome unchanged. -/
theorem withStatusCode_spec (e : WideEvent) (c : Int) :
    (withStatusCode e c).request.status_code = c
    ∧ (500 ≤ c → (withStatusCode e c).outcome = Outcome.error)
    ∧ (400 ≤ c → c < 500 → (withStatusCode e c).outcome = Outcome.warning)
    ∧ (c < 400 → (withStatusCode e c).outcome = e.outcome) := by
  unfold withStatusCode
  refine ⟨?_, ?_, ?_, ?_⟩
  · dsimp only
    split_ifs <;> rfl
  · intro h
    dsimp only
    split_ifs <;> first | rfl | (exfalso; omega)
  · intro h1 h2
    dsimp only
    split_ifs <;> first | rfl | (exfalso; omega)
  · intro h
    dsimp only
    split_ifs <;> first | rfl | (exfalso; omega)

/-- C1 witness: the three escalation branches of withStatusCode_spec
evaluated on the concrete event ev0. -/
theorem withStatusCode_spec_witness :
    (withStatusCode ev0 503).outcome = Outcome.error
    ∧ (withStatusCode ev0 404).outcome = Outcome.warning
    ∧ (withStatusCode ev0 200).outcome = ev0.outcome :=
  ⟨(withStatusCode_spec ev0 503).2.1 (by decide),
   (withStatusCode_spec ev0 404).2.2.1 (by decide) (by decide),
   (withStatusCode_spec ev0 200).2.2.2 (by decide)⟩

/-- C2, counterexample: the claim says fromRequest leaves trace_id
unchanged when no upstream correlation id is present, but on a request
with no headers and no explicit traceId argument it overwrites trace_id
with a freshly generated id. -/
theorem fromRequest_reassigns_without_upstream :
    ev0.trace_id = "t0"
    ∧ jsTruthy (getHeader webReqPlain "x-trace-id") = none
    ∧ jsTruthy (getHeader webReqPlain "x-request-id") = none
    ∧ (fromRequest ev0 webReqPlain none "fresh_1").trace_id = "fresh_1"
    ∧ ("fresh_1" : String) ≠ "t0" := by decide

/-- C2, amended: event_id is assigned at construction and never reassigned
by any subsequent builder or enrichment operation; fromRawRequest leaves
trace_id unchanged when no truthy traceId is supplied and overwrites it
with the supplied one otherwise; fromRequest always reassigns trace_id —
to the explicit truthy traceId argument when given, else to a truthy
x-trace-id / x-request-id header, else to a freshly generated id. -/
theorem identity_fields_spec :
    (∀ e req tid fresh, (fromRequest e req tid fresh).event_id = e.event_id)
    ∧ (∀ e d, (fromRawRequest e d).event_id = e.event_id)
    ∧ (∀ e u, (withUser e u).event_id = e.event_id)
    ∧ (∀ e b, (withBusiness e b).event_id = e.event_id)
    ∧ (∀ e p, (withPerformance e p).event_id = e.event_id)
    ∧ (∀ e f, (withFeatureFlags e f).event_id = e.event_id)
    ∧ (∀ e err r, (withError e err r).event_id = e.event_id)
    ∧ (∀ e c, (withStatusCode e c).event_id = e.event_id)
    ∧ (∀ e n s, (build e n s).event_id = e.event_id)
    ∧ (∀ e d, (enrichWideEvent e d).event_id = e.event_id)
    ∧ (∀ e d, jsTruthy d.traceId = none →
        (fromRawRequest e d).trace_id = e.trace_id)
    ∧ (∀ e d t, jsTruthy d.traceId = some t → (fromRawRequest e d).trace_id = t)
    ∧ (∀ e req fresh,
        jsTruthy (getHeader req "x-trace-id") = none →
        jsTruthy (getHeader req "x-request-id") = none →
        (fromRequest e req none fresh).trace_id = fresh)
    ∧ (∀ e req tid t fresh, jsTruthy tid = some t →
        (fromRequest e req tid fresh).trace_id = t)
    ∧ (∀ e req tid t fresh, jsTruthy tid = none →
        jsTruthy (getHeader req "x-trace-id") = some t →
        (fromRequest e req tid fresh).trace_id = t)
    ∧ (∀ e req tid t fresh, jsTruthy tid = none →
        jsTruthy (getHeader req "x-trace-id") = none →
        jsTruthy (getHeader req "x-request-id") = some t →
        (fromRequest e req tid fresh).trace_id = t) := by
  refine ⟨fun e req tid fresh => rfl, ?_, fun e u => rfl, fun e b => rfl,
    fun e p => rfl, fun e f => rfl, fun e err r => rfl, ?_, fun e n s => rfl,
    ?_, ?_, ?_, ?_, ?_, ?_, ?_⟩
  · intro e d
    unfold fromRawRequest
    cases jsTruthy d.traceId <;> rfl
  · intro e c
    unfold withStatusCode
    dsimp only
    split_ifs <;> rfl
  · intro e d
    cases hu : d.user <;> cases hb : d.business <;>
      cases hp : d.performance <;> cases hf : d.feature_flags <;>
      simp [enrichWideEvent, hu, hb, hp, hf]
  · intro e d h
    unfold fromRawRequest
    rw [h]
  · intro e d t h
    unfold fromRawRequest
    rw [h]
  · intro e req fresh h1 h2
    simp only [fromRequest]
    rw [h1, h2]
    rfl
  · intro e req tid t fresh h
    simp [fromRequest, h, jsOr]
  · intro e req tid t fresh h1 h2
    simp only [fromRequest]
    rw [h1, h2]
    rfl
  · intro e req tid t fresh h1 h2 h3
    simp only [fromRequest]
    rw [h1, h2, h3]
    rfl

/-- C2 witness: the amended trace_id behaviour evaluated on concrete
inputs, via identity_fields_spec. -/
theorem identity_fields_spec_witness :
    (fromRawRequest ev0 rawNoTid).trace_id = ev0.trace_id
    ∧ (fromRequest ev0 webReqPlain none "fresh_1").trace_id = "fresh_1"
    ∧ (fromRequest ev0 webReqTid none "fresh_1").trace_id = "up1" :=
  ⟨identity_fields_spec.2.2.2.2.2.2.2.2.2.2.1 ev0 rawNoTid (by decide),
   identity_fields_spec.2.2.2.2.2.2.2.2.2.2.2.2.1 ev0 webReqPlain "fresh_1"
     (by decide) (by decide),
   identity_fields_spec.2.2.2.2.2.2.2.2.2.2.2.2.2.2.1 ev0 webReqTid none
     "up1" "fresh_1" (by decide) (by decide)⟩

/-- C7: withError sets the outcome to "error" for every current state, and
fills the error record from the error's name (with the fallback "Error" on
an empty name), message and stack plus the retriable flag; setEventError
is a no-op when no event is in scope and has the identical effect to
withError when one is. -/
theorem setError_spec :
    (∀ e err r, (withError e err r).outcome = Outcome.error)
    ∧ (∀ e err r, (withError e err r).error = some
        { type := if err.name = "" then "Error" else err.name
          message := err.message
          code := none
          stack := err.stack
          retriable := r })
    ∧ (∀ err r, setEventError none err r = none)
    ∧ (∀ e err r, setEventError (some e) err r = some (withError e err r)) :=
  ⟨fun e err r => rfl, fun e err r => rfl, fun err r => rfl,
   fun e err r => rfl⟩

/-- C10: context enrichment touches at most the user, business,
performance and feature_flags fields — event_id, trace_id, timestamp,
request, service, error and outcome are all unchanged. -/
theorem enrichEvent_frame (e : WideEvent) (d : EnrichmentData) :
    enrichEvent (some e) d = some (enrichWideEvent e d)
    ∧ (enrichWideEvent e d).event_id = e.event_id
    ∧ (enrichWideEvent e d).trace_id = e.trace_id
    ∧ (enrichWideEvent e d).timestamp = e.timestamp
    ∧ (enrichWideEvent e d).request = e.request
    ∧ (enrichWideEvent e d).service = e.service
    ∧ (enrichWideEvent e d).error = e.error
    ∧ (enrichWideEvent e d).outcome = e.outcome := by
  cases hu : d.user <;> cases hb : d.business <;>
    cases hp : d.performance <;> cases hf : d.feature_flags <;>
    simp [enrichEvent, enrichWideEvent, hu, hb, hp, hf]

/-- One call of a merge-style enrichment sequence: a builder merge call or
a context enrichEvent call (with an event in scope). -/
inductive MergeCall : Type where
  | businessCall (b : SMap JVal)
  | performanceCall (p : SMap Int)
  | flagsCall (f : SMap Bool)
  | enrichCall (d : EnrichmentData)

/-- Apply one merge-style call to an event. -/
def applyMergeCall (e : WideEvent) : MergeCall → WideEvent
  | MergeCall.businessCall b => withBusiness e b
  | MergeCall.performanceCall p => withPerformance e p
  | MergeCall.flagsCall f => withFeatureFlags e f
  | MergeCall.enrichCall d => enrichWideEvent e d

/-- Apply a finite sequence of merge-style calls in order. -/
def applyMergeCalls (e : WideEvent) : List MergeCall → WideEvent
  | [] => e
  | c :: cs => applyMergeCalls (applyMergeCall e c) cs

/-- The business patches carried by a call sequence, in call order. -/
def businessPatches : List MergeCall → List (SMap JVal)
  | [] => []
  | MergeCall.businessCall b :: cs => b :: businessPatches cs
  | MergeCall.enrichCall d :: cs => d.business.toList ++ businessPatches cs
  | MergeCall.performanceCall _ :: cs => businessPatches cs
  | MergeCall.flagsCall _ :: cs => businessPatches cs

/-- The performance patches carried by a call sequence, in call order. -/
def performancePatches : List MergeCall → List (SMap Int)
  | [] => []
  | MergeCall.performanceCall p :: cs => p :: performancePatches cs
  | MergeCall.enrichCall d :: cs =>
      d.performance.toList ++ performancePatches cs
  | MergeCall.businessCall _ :: cs => performancePatches cs
  | MergeCall.flagsCall _ :: cs => performancePatches cs

/-- The feature-flag patches carried by a call sequence, in call order. -/
def flagsPatches : List MergeCall → List (SMap Bool)
  | [] => []
  | MergeCall.flagsCall f :: cs => f :: flagsPatches cs
  | MergeCall.enrichCall d :: cs => d.feature_flags.toList ++ flagsPatches cs
  | MergeCall.businessCall _ :: cs => flagsPatches cs
  | MergeCall.performanceCall _ :: cs => flagsPatches cs

lemma lww_append {α : Type} (init : Option α) (xs ys : List (SMap α))
    (k : String) : lww init (xs ++ ys) k = lww (lww init xs k) ys k := by
  simp [lww, List.foldl_append]

lemma business_withBusiness (e : WideEvent) (b : SMap JVal) (k : String) :
    smapGet0 (withBusiness e b).business k
      = jsOr (smapGet b k) (smapGet0 e.business k) :=
  smapGet0_merge e.business b k

lemma performance_withPerformance (e : WideEvent) (p : SMap Int)
    (k : String) :
    smapGet0 (withPerformance e p).performance k
      = jsOr (smapGet p k) (smapGet0 e.performance k) :=
  smapGet0_merge e.performance p k

lemma flags_withFeatureFlags (e : WideEvent) (f : SMap Bool) (k : String) :
    smapGet0 (withFeatureFlags e f).feature_flags k
      = jsOr (smapGet f k) (smapGet0 e.feature_flags k) :=
  smapGet0_merge e.feature_flags f k

lemma enrich_business_eq (e : WideEvent) (d : EnrichmentData) (k : String) :
    smapGet0 (enrichWideEvent e d).business k
      = lww (smapGet0 e.business k) d.business.toList k := by
  cases hu : d.user <;> cases hb : d.business <;>
    cases hp : d.performance <;> cases hf : d.feature_flags <;>
    simp [enrichWideEvent, hu, hb, hp, hf, lww, smapGet0, smapGet_smapMerge]

lemma enrich_performance_eq (e : WideEvent) (d : EnrichmentData)
    (k : String) :
    smapGet0 (enrichWideEvent e d).performance k
      = lww (smapGet0 e.performance k) d.performance.toList k := by
  cases hu : d.user <;> cases hb : d.business <;>
    cases hp : d.performance <;> cases hf : d.feature_flags <;>
    simp [enrichWideEvent, hu, hb, hp, hf, lww, smapGet0, smapGet_smapMerge]

lemma enrich_flags_eq (e : WideEvent) (d : EnrichmentData) (k : String) :
    smapGet0 (enrichWideEvent e d).feature_flags k
      = lww (smapGet0 e.feature_flags k) d.feature_flags.toList k := by
  cases hu : d.user <;> cases hb : d.business <;>
    cases hp : d.performance <;> cases hf : d.feature_flags <;>
    simp [enrichWideEvent, hu, hb, hp, hf, lww, smapGet0, smapGet_smapMerge]

lemma applyMergeCalls_business (cs : List MergeCall) (e : WideEvent)
    (k : String) :
    smapGet0 (applyMergeCalls e cs).business k
      = lww (smapGet0 e.business k) (businessPatches cs) k := by
  induction cs generalizing e with
  | nil => rfl
  | cons c cs ih =>
      cases c with
      | businessCall b =>
          show smapGet0 (applyMergeCalls (withBusiness e b) cs).business k
            = lww (jsOr (smapGet b k) (smapGet0 e.business k))
                (businessPatches cs) k
          rw [ih, business_withBusiness]
      | performanceCall p => exact ih (withPerformance e p)
      | flagsCall f => exact ih (withFeatureFlags e f)
      | enrichCall d =>
          show smapGet0 (applyMergeCalls (enrichWideEvent e d) cs).business k
            = lww (smapGet0 e.business k)
                (d.business.toList ++ businessPatches cs) k
          rw [ih, enrich_business_eq, lww_append]

lemma applyMergeCalls_performance (cs : List MergeCall) (e : WideEvent)
    (k : String) :
    smapGet0 (applyMergeCalls e cs).performance k
      = lww (smapGet0 e.performance k) (performancePatches cs) k := by
  induction cs generalizing e with
  | nil => rfl
  | cons c cs ih =>
      cases c with
      | businessCall b => exact ih (withBusiness e b)
      | performanceCall p =>
          show smapGet0
              (applyMergeCalls (withPerformance e p) cs).performance k
            = lww (jsOr (smapGet p k) (smapGet0 e.performance k))
                (performancePatches cs) k
          rw [ih, performance_withPerformance]
      | flagsCall f => exact ih (withFeatureFlags e f)
      | enrichCall d =>
          show smapGet0
              (applyMergeCalls (enrichWideEvent e d) cs).performance k
            = lww (smapGet0 e.performance k)
                (d.performance.toList ++ performancePatches cs) k
          rw [ih, enrich_performance_eq, lww_append]

lemma applyMergeCalls_flags (cs : List MergeCall) (e : WideEvent)
    (k : String) :
    smapGet0 (applyMergeCalls e cs).feature_flags k
      = lww (smapGet0 e.feature_flags k) (flagsPatches cs) k := by
  induction cs generalizing e with
  | nil => rfl
  | cons c cs ih =>
      cases c with
      | businessCall b => exact ih (withBusiness e b)
      | performanceCall p => exact ih (withPerformance e p)
      | flagsCall f =>
          show smapGet0
              (applyMergeCalls (withFeatureFlags e f) cs).feature_flags k
            = lww (jsOr (smapGet f k) (smapGet0 e.feature_flags k))
                (flagsPatches cs) k
          rw [ih, flags_withFeatureFlags]
      | enrichCall d =>
          show smapGet0
              (applyMergeCalls (enrichWideEvent e d) cs).feature_flags k
            = lww (smapGet0 e.feature_flags k)
                (d.feature_flags.toList ++ flagsPatches cs) k
          rw [ih, enrich_flags_eq, lww_append]

/-- C3: for every initial event and finite sequence of withBusiness,
withPerformance, withFeatureFlags and enrichEvent calls, each of the three
mapping fields reads, at every key, as the last-write-wins union of the
initial mapping and the sequence's patches; in particular no merge call
deletes a key that was present. -/
theorem merge_lww_spec (cs : List MergeCall) (e : WideEvent) (k : String) :
    (smapGet0 (applyMergeCalls e cs).business k
       = lww (smapGet0 e.business k) (businessPatches cs) k)
    ∧ (smapGet0 (applyMergeCalls e cs).performance k
       = lww (smapGet0 e.performance k) (performancePatches cs) k)
    ∧ (smapGet0 (applyMergeCalls e cs).feature_flags k
       = lww (smapGet0 e.feature_flags k) (flagsPatches cs) k)
    ∧ ((smapGet0 e.business k).isSome = true →
       (smapGet0 (applyMergeCalls e cs).business k).isSome = true)
    ∧ ((smapGet0 e.performance k).isSome = true →
       (smapGet0 (applyMergeCalls e cs).performance k).isSome = true)
    ∧ ((smapGet0 e.feature_flags k).isSome = true →
       (smapGet0 (applyMergeCalls e cs).feature_flags k).isSome = true) := by
  refine ⟨applyMergeCalls_business cs e k, applyMergeCalls_performance cs e k,
    applyMergeCalls_flags cs e k, ?_, ?_, ?_⟩
  · intro h
    rw [applyMergeCalls_business]
    exact lww_isSome_of_init _ _ _ h
  · intro h
    rw [applyMergeCalls_performance]
    exact lww_isSome_of_init _ _ _ h
  · intro h
    rw [applyMergeCalls_flags]
    exact lww_isSome_of_init _ _ _ h

/-- C3 witness: merge_lww_spec on a concrete two-call sequence that
overwrites one business key and keeps another. -/
theorem merge_lww_spec_witness :
    smapGet0
        (applyMergeCalls
          { ev0 with business := some [("a", JVal.num 1)] }
          [MergeCall.businessCall [("a", JVal.num 2), ("b", JVal.str "x")],
           MergeCall.businessCall [("b", JVal.str "y")]]).business "b"
      = some (JVal.str "y")
    ∧ (smapGet0
        (applyMergeCalls
          { ev0 with business := some [("a", JVal.num 1)] }
          [MergeCall.businessCall [("a", JVal.num 2), ("b", JVal.str "x")],
           MergeCall.businessCall [("b", JVal.str "y")]]).business "a").isSome
        = true := by
  constructor
  · rw [(merge_lww_spec _ _ _).1]
    decide
  · exact (merge_lww_spec
      [MergeCall.businessCall [("a", JVal.num 2), ("b", JVal.str "x")],
       MergeCall.businessCall [("b", JVal.str "y")]]
      { ev0 with business := some [("a", JVal.num 1)] } "a").2.2.2.1
      (by decide)

/-- Priority cascade of the default sampling rule as the spec words it,
amended on rule 5 only: the subscription must additionally be non-empty
(JS truthiness), since the source guards it with `&&`. For a pure Boolean
the first-match-wins cascade is equivalent to this disjunction. -/
def keepRuleSpec (e : WideEvent) (opts : SamplingOptions) (rand : Rat) :
    Prop :=
  e.outcome = Outcome.error
  ∨ 500 ≤ e.request.status_code
  ∨ e.error.isSome = true
  ∨ opts.slowThresholdMs.getD 2000 < e.request.duration_ms
  ∨ (∃ u s, e.user = some u ∧ u.subscription = some s ∧ s ≠ ""
      ∧ s ∈ opts.alwaysKeepSubscriptions.getD ["enterprise", "premium"])
  ∨ rand < opts.sampleRate.getD (1 / 10)

lemma subscription_guard_iff (e : WideEvent) (subs : List String) :
    ((match e.user with
      | some u =>
          match jsTruthy u.subscription with
          | some s => subs.contains s
          | none => false
      | none => false) = true)
    ↔ ∃ u s, e.user = some u ∧ u.subscription = some s ∧ s ≠ ""
        ∧ s ∈ subs := by
  cases hu : e.user with
  | none => simp [hu]
  | some u =>
      cases hs : u.subscription with
      | none => simp [hu, hs, jsTruthy]
      | some s =>
          by_cases hempty : s = ""
          · subst hempty
            simp [hu, hs, jsTruthy]
          · simp [hu, hs, jsTruthy, hempty]

lemma defaultShouldSample_iff (e : WideEvent) (opts : SamplingOptions)
    (rand : Rat) :
    defaultShouldSample e opts rand = true ↔ keepRuleSpec e opts rand := by
  unfold defaultShouldSample keepRuleSpec
  dsimp only
  split_ifs with h1 h2 h3 h4 h5
  · simp [h1]
  · simp [h2]
  · simp [h3]
  · simp [h4]
  · exact iff_of_true rfl
      (Or.inr (Or.inr (Or.inr (Or.inr
        (Or.inl ((subscription_guard_iff e _).mp h5))))))
  · have h5x : ¬ ∃ u s, e.user = some u ∧ u.subscription = some s ∧ s ≠ ""
        ∧ s ∈ opts.alwaysKeepSubscriptions.getD ["enterprise", "premium"] :=
      fun hex => h5 ((subscription_guard_iff e _).mpr hex)
    simp only [decide_eq_true_iff]
    constructor
    · intro hr
      exact Or.inr (Or.inr (Or.inr (Or.inr (Or.inr hr))))
    · intro hor
      rcases hor with h | h | h | h | h | h
      · exact absurd h h1
      · exact absurd h h2
      · exact absurd h h3
      · exact absurd h h4
      · exact absurd h h5x
      · exact h

/-- C4, counterexample: rule 5 of the claim says an event whose
user.subscription is present and a member of alwaysKeepSubscriptions is
kept, but with the subscription being the empty string (present, and a
member of the configured list) and sampleRate 0 the source drops the
event: its `&&` guard treats the empty string as falsy. -/
theorem defaultShouldSample_empty_subscription :
    evEmptySub.user = some { subscription := some "" }
    ∧ "" ∈ optsEmptySub.alwaysKeepSubscriptions.getD
        ["enterprise", "premium"]
    ∧ defaultShouldSample evEmptySub optsEmptySub 0 = false := by decide

/-- C4, amended: defaultShouldSample keeps exactly when one of the five
priority rules fires — outcome error; status ≥ 500; error present;
duration over the threshold (default 2000); subscription present,
non-empty and a member of the always-keep list (default enterprise,
premium) — or else the random draw falls under sampleRate (default 1/10).
With sampleRate 0: every error-outcome event is kept, the benign
200/500ms event is dropped, the 2500ms event is kept, and the enterprise
user's event is kept. -/
theorem defaultShouldSample_spec :
    (∀ e opts rand,
      defaultShouldSample e opts rand = true ↔ keepRuleSpec e opts rand)
    ∧ (∀ e rand, e.outcome = Outcome.error →
        defaultShouldSample e opts0 rand = true)
    ∧ (∀ rand : Rat, 0 ≤ rand → defaultShouldSample ev0 opts0 rand = false)
    ∧ (∀ rand : Rat, defaultShouldSample evSlow opts0 rand = true)
    ∧ (∀ rand : Rat, defaultShouldSample evEnterprise opts0 rand = true) := by
  refine ⟨defaultShouldSample_iff, ?_, ?_, ?_, ?_⟩
  · intro e rand h
    simp [defaultShouldSample, h]
  · intro rand h
    have hred : defaultShouldSample ev0 opts0 rand
        = decide (rand < (0 : Rat)) := rfl
    rw [hred, decide_eq_false (not_lt.mpr h)]
  · intro rand
    rfl
  · intro rand
    rfl

/-- C4 witness: defaultShouldSample_spec evaluated at the concrete draw
one half. -/
theorem defaultShouldSample_spec_witness :
    defaultShouldSample evErr0 opts0 (1 / 2) = true
    ∧ defaultShouldSample ev0 opts0 (1 / 2) = false :=
  ⟨defaultShouldSample_spec.2.1 evErr0 (1 / 2) (by decide),
   defaultShouldSample_spec.2.2.1 (1 / 2) (by norm_num)⟩

lemma send_token (s : AdapterState) (e : WideEvent) :
    (send s e).1.token = s.token := by
  unfold send flushSync
  dsimp only
  split_ifs <;> rfl

lemma flush_token (s : AdapterState) (arr : List WideEvent)
    (out : FlushOutcome) : (flush s arr out).1.token = s.token := by
  unfold flush flushSync
  dsimp only
  split_ifs <;> cases out <;> rfl

/-- C5: over reachable adapter states (established at construction and
preserved by send and flush: a tokenless adapter holds no pending events),
flush always clears the scheduled-flush slot; on an empty queue it returns
unchanged but for that slot, with no ingest request; on a nonempty queue
it sends the whole swapped-out queue as the single ingest request, and the
queue afterwards holds exactly the events that arrived during the
round-trip — the batch is never re-queued, whatever the response outcome
or network exception. -/
theorem flush_spec :
    (∀ cfg env, AdapterInv (mkAdapter cfg env))
    ∧ (∀ s e, AdapterInv s → AdapterInv (send s e).1)
    ∧ (∀ s arr out, AdapterInv s → AdapterInv (flush s arr out).1)
    ∧ (∀ s arr out, (flush s arr out).1.flushTimeoutSet = false)
    ∧ (∀ s arr out, s.pending = [] →
        flush s arr out = ({ s with flushTimeoutSet := false }, none))
    ∧ (∀ s arr out, AdapterInv s → s.pending ≠ [] →
        (flush s arr out).2 = some s.pending
        ∧ (flush s arr out).1.pending = arr) := by
  refine ⟨?_, ?_, ?_, ?_, ?_, ?_⟩
  · intro cfg env h
    rfl
  · intro s e hinv htok
    have ht : s.token = "" := by rw [← send_token s e]; exact htok
    simp [send, ht, hinv ht]
  · intro s arr out hinv htok
    have ht : s.token = "" := by rw [← flush_token s arr out]; exact htok
    have hp := hinv ht
    simp [flush, flushSync, hp]
  · intro s arr out
    unfold flush flushSync
    dsimp only
    split_ifs <;> cases out <;> rfl
  · intro s arr out h
    simp [flush, flushSync, h]
  · intro s arr out hinv hne
    have ht : ¬ s.token = "" := fun h => hne (hinv h)
    cases out <;> simp [flush, flushSync, hne, ht]

/-- Concrete adapter state holding one pending event with a scheduled
flush. -/
def sAdapter1 : AdapterState :=
  { token := "t", pending := [ev0], flushTimeoutSet := true }

/-- C5 witness: flush_spec on the concrete state sAdapter1 with no
arrivals and a failing HTTP response: the batch is sent once and dropped,
not re-queued. -/
theorem flush_spec_witness :
    (flush sAdapter1 [] FlushOutcome.httpError).2 = some [ev0]
    ∧ (flush sAdapter1 [] FlushOutcome.httpError).1.pending = [] := by
  have h := flush_spec.2.2.2.2.2 sAdapter1 [] FlushOutcome.httpError
    (fun h => absurd h (by decide)) (by decide)
  exact ⟨by simpa [sAdapter1] using h.1, h.2⟩

/-- C6: send on a tokenless adapter drops the event — queue and
scheduled-flush slot unchanged, no flush triggered; otherwise the event is
appended, and when the queue reaches length 10 the synchronous prefix of
an immediate flush runs at once, else a flush is scheduled: afterwards the
slot always holds exactly one scheduled flush, and when one was already
scheduled the state changes only by the appended event (no second timer is
created). -/
theorem send_spec :
    (∀ s e, s.token = "" → send s e = (s, false))
    ∧ (∀ s e, s.token ≠ "" → 10 ≤ s.pending.length + 1 →
        send s e
          = ((flushSync { s with pending := s.pending ++ [e] }).1, true))
    ∧ (∀ s e, s.token ≠ "" → s.pending.length + 1 < 10 →
        (send s e).2 = false
        ∧ (send s e).1.pending = s.pending ++ [e]
        ∧ (send s e).1.flushTimeoutSet = true
        ∧ (send s e).1.token = s.token
        ∧ (s.flushTimeoutSet = true →
            (send s e).1 = { s with pending := s.pending ++ [e] })) := by
  refine ⟨?_, ?_, ?_⟩
  · intro s e h
    simp [send, h]
  · intro s e h1 h2
    have hlen : 10 ≤ (s.pending ++ [e]).length := by simpa using h2
    simp [send, h1, hlen]
    intro hlt
    exfalso
    omega
  · intro s e h1 h2
    have hnot : ¬ 9 ≤ s.pending.length := by omega
    by_cases hts : s.flushTimeoutSet
    · simp [send, h1, hnot, hts]
    · simp [send, h1, hnot, hts]

/-- C6 witness: send_spec on a concrete adapter with a token and an empty
queue: the event is queued and exactly one flush gets scheduled. -/
theorem send_spec_witness :
    (send { token := "t", pending := [], flushTimeoutSet := false }
        ev0).2 = false
    ∧ (send { token := "t", pending := [], flushTimeoutSet := false }
        ev0).1.pending = [ev0]
    ∧ (send { token := "t", pending := [], flushTimeoutSet := false }
        ev0).1.flushTimeoutSet = true := by
  have h := send_spec.2.2
    { token := "t", pending := [], flushTimeoutSet := false } ev0
    (by decide) (by decide)
  exact ⟨h.1, by simpa using h.2.1, h.2.2.1⟩

lemma enrich_user_some (e : WideEvent) (d : EnrichmentData) (u : User)
    (h : d.user = some u) :
    (enrichWideEvent e d).user = some (userSpread (e.user.getD {}) u) := by
  cases hb : d.business <;> cases hp : d.performance <;>
    cases hf : d.feature_flags <;>
    simp [enrichWideEvent, h, hb, hp, hf]

lemma enrich_user_none (e : WideEvent) (d : EnrichmentData)
    (h : d.user = none) : (enrichWideEvent e d).user = e.user := by
  cases hb : d.business <;> cases hp : d.performance <;>
    cases hf : d.feature_flags <;>
    simp [enrichWideEvent, h, hb, hp, hf]

/-- C8: context enrichment with no event in scope is a total no-op;
with an event in scope the user object is spread-merged field by field
(patch fields win, absent patch fields keep the existing value) and
business, performance and feature_flags are each merged key-wise, keys
absent from the input preserved — so no existing key is ever lost. -/
theorem enrich_spec :
    (∀ d, enrichEvent none d = none)
    ∧ (∀ e d, enrichEvent (some e) d = some (enrichWideEvent e d))
    ∧ (∀ e d u, d.user = some u →
        (enrichWideEvent e d).user = some (userSpread (e.user.getD {}) u))
    ∧ (∀ e d, d.user = none → (enrichWideEvent e d).user = e.user)
    ∧ (∀ old patch,
        (userSpread old patch).id = jsOr patch.id old.id
        ∧ (userSpread old patch).email = jsOr patch.email old.email
        ∧ (userSpread old patch).role = jsOr patch.role old.role
        ∧ (userSpread old patch).subscription
            = jsOr patch.subscription old.subscription
        ∧ (userSpread old patch).account_age_days
            = jsOr patch.account_age_days old.account_age_days)
    ∧ (∀ e d k, smapGet0 (enrichWideEvent e d).business k
        = lww (smapGet0 e.business k) d.business.toList k)
    ∧ (∀ e d k, smapGet0 (enrichWideEvent e d).performance k
        = lww (smapGet0 e.performance k) d.performance.toList k)
    ∧ (∀ e d k, smapGet0 (enrichWideEvent e d).feature_flags k
        = lww (smapGet0 e.feature_flags k) d.feature_flags.toList k)
    ∧ (∀ e d k, (smapGet0 e.business k).isSome = true →
        (smapGet0 (enrichWideEvent e d).business k).isSome = true)
    ∧ (∀ e d k, (smapGet0 e.performance k).isSome = true →
        (smapGet0 (enrichWideEvent e d).performance k).isSome = true)
    ∧ (∀ e d k, (smapGet0 e.feature_flags k).isSome = true →
        (smapGet0 (enrichWideEvent e d).feature_flags k).isSome = true) := by
  refine ⟨fun d => rfl, fun e d => rfl, enrich_user_some, enrich_user_none,
    fun old patch => ⟨rfl, rfl, rfl, rfl, rfl⟩, enrich_business_eq,
    enrich_performance_eq, enrich_flags_eq, ?_, ?_, ?_⟩
  · intro e d k h
    rw [enrich_business_eq]
    exact lww_isSome_of_init _ _ _ h
  · intro e d k h
    rw [enrich_performance_eq]
    exact lww_isSome_of_init _ _ _ h
  · intro e d k h
    rw [enrich_flags_eq]
    exact lww_isSome_of_init _ _ _ h

/-- Concrete enrichment payload: a user patch and one business key. -/
def enrichD1 : EnrichmentData :=
  { user := some { id := some "u1" }, business := some [("a", JVal.num 5)] }

/-- Concrete event holding one pre-existing business key. -/
def evBiz : WideEvent := { ev0 with business := some [("z", JVal.num 9)] }

/-- C8 witness: enrich_spec applied to the concrete payload enrichD1 on
the concrete event evBiz — the user patch is installed and the existing
business key "z" survives the merge. -/
theorem enrich_spec_witness :
    (enrichWideEvent evBiz enrichD1).user
      = some (userSpread (evBiz.user.getD {}) { id := some "u1" })
    ∧ (smapGet0 (enrichWideEvent evBiz enrichD1).business "z").isSome
        = true :=
  ⟨enrich_spec.2.2.1 evBiz enrichD1 { id := some "u1" } (by decide),
   enrich_spec.2.2.2.2.2.2.2.2.1 evBiz enrichD1 "z" (by decide)⟩

end SasLogger
